import Mathlib

/-!
Verification of the Product-Importer asynchronous import pipeline.

Shallow embedding of the core pipeline code:
  * `backend/app/services/csv_processor.py` — header validation, row counting,
    batch iteration with in-batch deduplication;
  * `backend/app/models.py` — `Product.normalize_sku`, status / event enums;
  * `backend/app/tasks.py` — the import orchestrator `_process_csv_import`,
    `_calculate_progress`, `_update_job_status`, `_mark_failed`, and the
    webhook delivery worker `_dispatch_webhook` with its actor options;
  * `backend/app/services/webhook_service.py` — `enqueue_webhook_events`;
  * `backend/app/api/progress.py` — `_progress_event_stream`.

Python strings are modelled as Lean `String`s with ASCII-level `strip`/`lower`
(the repository's data and messages are ASCII).  Machine-level concerns
(the database driver, the HTTP stack, the Redis client) are abstracted to the
values they hand the embedded functions; the task dispatcher (dramatiq) is not
part of the repository, so its retry contract is modelled from the spec where a
claim needs it, as marked on the corresponding definitions.
-/

namespace ProductImporter

instance {ε α : Type} [DecidableEq ε] [DecidableEq α] :
    DecidableEq (Except ε α) := fun a b => by
  cases a <;> cases b
  case error.error e f => exact decidable_of_iff (e = f) (by simp)
  case ok.ok x y => exact decidable_of_iff (x = y) (by simp)
  all_goals exact isFalse (fun h => Except.noConfusion h)

/-- The ASCII whitespace characters Python's `str.strip()` removes. -/
def isPySpace (c : Char) : Bool :=
  c = ' ' ∨ c = '\t' ∨ c = '\n' ∨ c = '\x0d' ∨ c = '\x0b' ∨ c = '\x0c'

/-- Python `str.strip()` on the ASCII data used by the pipeline: drop leading
and trailing whitespace. -/
def pyStrip (s : String) : String :=
  ⟨((s.data.dropWhile isPySpace).reverse.dropWhile isPySpace).reverse⟩

/-- Python `str.lower()` on the ASCII data used by the pipeline: lowercase
each character. -/
def pyLower (s : String) : String := ⟨s.data.map Char.toLower⟩

/-! ## CSV processor (`backend/app/services/csv_processor.py`) -/

/-- `REQUIRED_COLUMNS = ("name", "sku", "description")`. -/
def REQUIRED_COLUMNS : List String := ["name", "sku", "description"]

/-- A data row as produced by `csv.DictReader` restricted to the required
columns: `row.get(column)` yields `none` when the cell is absent. -/
structure DataRow where
  name : Option String
  sku : Option String
  description : Option String
deriving DecidableEq, Repr

/-- A CSV file after parsing: the header field names and the data rows. -/
structure CsvFile where
  header : List String
  rows : List DataRow
deriving DecidableEq, Repr

/-- `_validate_headers`: empty field-name list is rejected; otherwise the
non-empty field names are stripped and lowercased and each required column
must appear, else the error names the missing columns. -/
def validateHeaders (fieldnames : List String) : Except String Unit :=
  if fieldnames = [] then
    .error "CSV file is missing a header row."
  else
    let fields := (fieldnames.filter (fun f => f ≠ "")).map (fun f => pyLower (pyStrip f))
    let missing := REQUIRED_COLUMNS.filter (fun column => column ∉ fields)
    if missing ≠ [] then
      .error ("CSV missing required columns: " ++ String.intercalate ", " missing)
    else
      .ok ()

/-- `count_rows`: a missing file is a validation error; otherwise the headers
are validated and the data rows are counted.  The `Option CsvFile` argument
models the file behind `file_path` (`none` = `path.exists()` is false). -/
def count_rows (file : Option CsvFile) : Except String Nat :=
  match file with
  | none => .error "Uploaded CSV file no longer exists on the server."
  | some f => do
      let _ ← validateHeaders f.header
      .ok f.rows.length

/-- `Product.normalize_sku` (`backend/app/models.py`): `value.strip().lower()`. -/
def normalize_sku (value : String) : String := pyLower (pyStrip value)

/-- A normalized record built by `iter_batches` for one CSV row. -/
structure Record where
  name : String
  sku : String
  sku_normalized : String
  description : Option String
  active : Bool
deriving DecidableEq, Repr

/-- Python `dict` insertion `d[k] = v` on an insertion-ordered association
list: replacing in place when the key exists, appending otherwise. -/
def dictInsert {α : Type} (k : String) (v : α) : List (String × α) → List (String × α)
  | [] => [(k, v)]
  | (k', v') :: rest =>
      if k' = k then (k, v) :: rest else (k', v') :: dictInsert k v rest

/-- The row loop of `iter_batches`: `cur` is the `current_batch` dict
(insertion-ordered, keyed by normalized SKU), `rawSince` is
`raw_since_flush`.  Returns the yielded batches (each `(values, raw count)`)
together with `some message` when a row fails validation mid-iteration
(batches flushed before the bad row have already been yielded). -/
def iterBatchesGo (bs : Nat) : List DataRow → List (String × Record) → Nat →
    List (List Record × Nat) × Option String
  | [], cur, rawSince =>
      (if cur ≠ [] then [(cur.map Prod.snd, rawSince)] else [], none)
  | row :: rest, cur, rawSince =>
      let rawSince := rawSince + 1
      let name := pyStrip (row.name.getD "")
      let sku := pyStrip (row.sku.getD "")
      let description :=
        let d := pyStrip (row.description.getD "")
        if d = "" then none else some d
      if name = "" ∨ sku = "" then
        ([], some "Each row must include non-empty 'name' and 'sku' values.")
      else
        let normalizedSku := normalize_sku sku
        let cur := dictInsert normalizedSku
          ⟨name, sku, normalizedSku, description, true⟩ cur
        if bs ≤ cur.length then
          let res := iterBatchesGo bs rest [] 0
          ((cur.map Prod.snd, rawSince) :: res.1, res.2)
        else
          iterBatchesGo bs rest cur rawSince

/-- `iter_batches(file_path, batch_size)`: validation of file existence and
headers, then the batching loop.  Outer validation failures yield no batches
and the error message; an in-loop row failure likewise surfaces in the second
component after the batches already yielded. -/
def iter_batches (file : Option CsvFile) (batch_size : Nat) :
    List (List Record × Nat) × Option String :=
  match file with
  | none => ([], some "Uploaded CSV file no longer exists on the server.")
  | some f =>
      match validateHeaders f.header with
      | .error e => ([], some e)
      | .ok _ => iterBatchesGo batch_size f.rows [] 0

/-! ## Job model (`backend/app/models.py`) -/

/-- `ImportJobStatus` enum. -/
inductive ImportJobStatus where
  | pending
  | processing
  | completed
  | failed
deriving DecidableEq, Repr

/-- The `.value` string of an `ImportJobStatus` member. -/
def ImportJobStatus.value : ImportJobStatus → String
  | .pending => "pending"
  | .processing => "processing"
  | .completed => "completed"
  | .failed => "failed"

/-- `WebhookEventType` enum. -/
inductive WebhookEventType where
  | product_created
  | product_updated
  | product_deleted
  | import_completed
  | import_failed
  | bulk_delete_completed
deriving DecidableEq, Repr

/-- The `.value` string of a `WebhookEventType` member. -/
def WebhookEventType.value : WebhookEventType → String
  | .product_created => "product.created"
  | .product_updated => "product.updated"
  | .product_deleted => "product.deleted"
  | .import_completed => "import.completed"
  | .import_failed => "import.failed"
  | .bulk_delete_completed => "bulk_delete.completed"

/-- The fields of an `ImportJob` row the orchestrator reads and writes. -/
structure JobRow where
  status : ImportJobStatus
  progress : Nat
  total_records : Option Nat
  processed_records : Nat
  error_message : Option String
deriving DecidableEq, Repr

/-! ## Import orchestrator (`backend/app/tasks.py`) -/

/-- `BATCH_SIZE = 1000`. -/
def BATCH_SIZE : Nat := 1000

/-- `_calculate_progress(processed, total)`: `0` when total is null or zero,
else `min(int(processed * 100 / total), 100)` (Nat division is the floor the
`int()` truncation computes on non-negative values). -/
def calculate_progress (processed : Nat) (total : Option Nat) : Nat :=
  match total with
  | none => 0
  | some t => if t = 0 then 0 else min (processed * 100 / t) 100

/-- Which orchestrator code path performed a durable `session.commit()` of the
job row. -/
inductive CommitKind where
  | resetProcessing   -- `_update_job_status(..., PROCESSING, reset_progress=True)`
  | totalPersisted    -- the commit after `job.total_records = total_records`
  | batch             -- the per-batch commit after `job.progress = _calculate_progress(...)`
  | completed         -- `_update_job_status(..., COMPLETED)`
  | failed            -- `_mark_failed`
deriving DecidableEq, Repr

/-- A durable commit of the job row: the code path plus the row contents. -/
structure JobCommit where
  kind : CommitKind
  status : ImportJobStatus
  progress : Nat
  total_records : Option Nat
  processed_records : Nat
  error_message : Option String
deriving DecidableEq, Repr

/-- A webhook event handed to `enqueue_webhook_events` by the orchestrator,
with the payload parts the claims are about. -/
inductive EmittedEvent where
  | productCreated (sku_normalized : String)
  | productUpdated (sku_normalized : String)
  | importCompleted (job_id : String) (processed_records : Nat) (total_records : Nat)
  | importFailed (job_id : String) (message : String)
deriving DecidableEq, Repr

/-- How the actor body finished: a normal `return`, or `raise Retry()`. -/
inductive RunOutcome where
  | returned
  | retrySignal
deriving DecidableEq, Repr

/-- Where an *unexpected* (non-validation) exception is injected into the
orchestrator, modelling the `except Exception` arms: `duringCount` fires in
the counting phase, `duringBatch k` fires at the start of the `k`-th (0-based)
batch iteration. -/
inductive Fault where
  | none
  | duringCount
  | duringBatch (k : Nat)
deriving DecidableEq, Repr

/-- How the orchestrator sees the job's `file_path`: no path stored, a path
whose file is gone, or a path with a parsed file behind it. -/
inductive FileRef where
  | noPath
  | missingOnDisk
  | present (f : CsvFile)
deriving DecidableEq, Repr

/-- Observable effects of one `_process_csv_import` run. -/
structure RunResult where
  commits : List JobCommit
  events : List EmittedEvent
  upserts : List (List Record)
  outcome : RunOutcome
deriving DecidableEq, Repr

/-- Set-insert on the list of normalized SKUs present in the products table. -/
def skuInsert (db : List String) (sku : String) : List String :=
  if sku ∈ db then db else db ++ [sku]

/-- Result of the orchestrator's batch loop. -/
structure LoopResult where
  commits : List JobCommit
  events : List EmittedEvent
  upserts : List (List Record)
  processed : Nat
  db : List String
  faulted : Bool
deriving DecidableEq, Repr

/-- The `async for batch_payload, raw_count in _iter_batches_async(...)` loop
body of `_process_csv_import`: pre-upsert existence query, upsert, advance
`processed_records` by the raw count, compute and commit progress, emit one
created/updated event per affected product.  `idx` counts the iterations for
`Fault.duringBatch`. -/
def processBatchesGo (total : Nat) (err0 : Option String) (fault : Fault) :
    List (List Record × Nat) → Nat → List String → Nat → LoopResult
  | [], processed, db, _ =>
      ⟨[], [], [], processed, db, false⟩
  | (batch, rawCount) :: rest, processed, db, idx =>
      if fault = .duringBatch idx then
        ⟨[], [], [], processed, db, true⟩
      else
        let batchSkus := batch.map (fun r => r.sku_normalized)
        let existingSkus := batchSkus.filter (fun s => s ∈ db)
        let db' := batchSkus.foldl skuInsert db
        let processed' := processed + rawCount
        let progress := calculate_progress processed' (some total)
        let commit : JobCommit :=
          ⟨.batch, .processing, progress, some total, processed', err0⟩
        let events := batch.map (fun r =>
          if r.sku_normalized ∈ existingSkus then
            EmittedEvent.productUpdated r.sku_normalized
          else
            EmittedEvent.productCreated r.sku_normalized)
        let restResult := processBatchesGo total err0 fault rest processed' db' (idx + 1)
        ⟨commit :: restResult.commits, events ++ restResult.events,
          batch :: restResult.upserts, restResult.processed, restResult.db,
          restResult.faulted⟩

/-- The commit performed by `_mark_failed`: status `FAILED`, the message in
`error_message`, progress forced to `0`; totals are whatever the job object
holds at that point. -/
def failedCommit (total : Option Nat) (processed : Nat) (message : String) : JobCommit :=
  ⟨.failed, .failed, 0, total, processed, some message⟩

/-- The body of `_process_csv_import` after the file-path guard: status reset,
counting phase, batch loop and completion/failure commits, over the parsed
file view `fileOpt` behind the job's `file_path`. -/
def runImportBody (jobId : String) (job0 : JobRow) (fileOpt : Option CsvFile)
    (db : List String) (fault : Fault) : RunResult :=
      let resetCommit : JobCommit :=
        ⟨.resetProcessing, .processing, 0, job0.total_records, 0, job0.error_message⟩
      if fault = .duringCount then
        let msg := "Unexpected error preparing import."
        ⟨[resetCommit, failedCommit job0.total_records 0 msg],
          [.importFailed jobId msg], [], .retrySignal⟩
      else
        match count_rows fileOpt with
        | .error msg =>
            ⟨[resetCommit, failedCommit job0.total_records 0 msg],
              [.importFailed jobId msg], [], .returned⟩
        | .ok total =>
            let totalCommit : JobCommit :=
              ⟨.totalPersisted, .processing, 0, some total, 0, job0.error_message⟩
            let ib := iter_batches fileOpt BATCH_SIZE
            let lr := processBatchesGo total job0.error_message fault ib.1 0 db 0
            let baseCommits := resetCommit :: totalCommit :: lr.commits
            if lr.faulted then
              let msg := "Unexpected error processing CSV."
              ⟨baseCommits ++ [failedCommit (some total) lr.processed msg],
                lr.events ++ [.importFailed jobId msg], lr.upserts, .retrySignal⟩
            else
              match ib.2 with
              | some msg =>
                  ⟨baseCommits ++ [failedCommit (some total) lr.processed msg],
                    lr.events ++ [.importFailed jobId msg], lr.upserts, .returned⟩
              | none =>
                  let completedCommit : JobCommit :=
                    ⟨.completed, .completed, 100, some total, lr.processed,
                      job0.error_message⟩
                  ⟨baseCommits ++ [completedCommit],
                    lr.events ++ [.importCompleted jobId lr.processed total],
                    lr.upserts, .returned⟩

/-- `_process_csv_import(job_id)` for a job row that exists, as the sequence of
durable commits, enqueued webhook events, upserted batches and the actor
outcome.  `job0` is the row as loaded, `db` the set of normalized SKUs already
in the products table, `fault` the injected unexpected-exception point. -/
def runImport (jobId : String) (job0 : JobRow) (file : FileRef)
    (db : List String) (fault : Fault) : RunResult :=
  match file with
  | .noPath =>
      -- `if not job.file_path:` → `_mark_failed` before any status reset
      let msg := "Upload reference missing; cannot process."
      ⟨[failedCommit job0.total_records job0.processed_records msg],
        [.importFailed jobId msg], [], .returned⟩
  | .missingOnDisk => runImportBody jobId job0 Option.none db fault
  | .present f => runImportBody jobId job0 (some f) db fault

/-! ## Task dispatcher contract and actor options -/

/-- `@dramatiq.actor(max_retries=0, queue_name="default")` on
`process_csv_import`. -/
def process_csv_import_max_retries : Nat := 0

/-- `@dramatiq.actor(max_retries=3, min_backoff=5000)` on `dispatch_webhook`. -/
def dispatch_webhook_max_retries : Nat := 3

/-- `min_backoff=5000` (milliseconds) on `dispatch_webhook`. -/
def dispatch_webhook_min_backoff : Nat := 5000

/-- How one invocation of an actor body ended, as the dispatcher sees it. -/
inductive TaskOutcome where
  | success
  | unexpectedException
  | retryRequested
deriving DecidableEq, Repr

/-- Modelled from the spec: the task dispatcher (the queue/broker, external to
the repository) "supports configurable max-retry count and fixed/backoff delay
per task type; the import task is configured for zero dispatcher-level retries
on normal completion path but the orchestrator can force a retry by signaling
a transient-failure condition distinct from a terminal failure".  A normal
return is never retried, an ordinary exception is retried while the retry
count is below `maxRetries`, and the transient-failure signal (`Retry`)
forces a retry. -/
def dispatcherRetries (maxRetries : Nat) (retriesSoFar : Nat) : TaskOutcome → Bool
  | .success => false
  | .unexpectedException => retriesSoFar < maxRetries
  | .retryRequested => true

/-- The dispatcher-level outcome of a `_process_csv_import` run: a normal
return is a success, `raise Retry()` is the transient-failure signal. -/
def taskOutcomeOf : RunOutcome → TaskOutcome
  | .returned => .success
  | .retrySignal => .retryRequested

/-! ## Webhook delivery worker (`_dispatch_webhook` in `backend/app/tasks.py`) -/

/-- What one HTTP POST attempt produced: a response with a status code, a
transport-level error raised by the client, or any other unexpected
exception. -/
inductive AttemptOutcome where
  | response (status : Nat)
  | transportError
  | unexpectedError
deriving DecidableEq, Repr

/-- How one `_dispatch_webhook` body invocation ends. -/
inductive DeliveryResult where
  | delivered
  | retrySignal
deriving DecidableEq, Repr

/-- One `_dispatch_webhook` body run: `response.status_code >= 400` raises
`Retry`; a transport error or any unexpected exception is caught by the
`except Exception` arm and re-raised as `Retry`; a `< 400` response is a
successful delivery. -/
def deliverAttempt : AttemptOutcome → DeliveryResult
  | .response status => if 400 ≤ status then .retrySignal else .delivered
  | .transportError => .retrySignal
  | .unexpectedError => .retrySignal

/-- `_dispatch_webhook` performs no read or write of any `ImportJob` row: its
durable job-commit trace is empty whatever the attempt outcome. -/
def deliverAttemptJobCommits (_ : AttemptOutcome) : List JobCommit := []

/-- Terminal fate of one enqueued webhook delivery. -/
inductive DeliveryFate where
  | delivered
  | dropped
deriving DecidableEq, Repr

/-- Modelled from the spec: the dispatcher's bounded retry loop for the
delivery worker — "a response status ≥400, a transport-level error, or any
unexpected exception triggers a retry with bounded count (3 attempts) and
backoff (starting ~5 time units); retries exhausted → delivery is dropped".
`outcomes n` is what the `n`-th attempt (0-based) would produce; the loop
re-runs the body while it signals `Retry` and retries remain. -/
def runDeliveryGo (outcomes : Nat → AttemptOutcome) (attemptIdx : Nat) :
    Nat → Nat × DeliveryFate
  | 0 =>
      match deliverAttempt (outcomes attemptIdx) with
      | .delivered => (attemptIdx + 1, .delivered)
      | .retrySignal => (attemptIdx + 1, .dropped)
  | retriesLeft + 1 =>
      match deliverAttempt (outcomes attemptIdx) with
      | .delivered => (attemptIdx + 1, .delivered)
      | .retrySignal => runDeliveryGo outcomes (attemptIdx + 1) retriesLeft

/-- Modelled from the spec: the full delivery of one enqueued webhook message
under the `dispatch_webhook` actor options — at most `1 + max_retries`
attempts.  Returns the number of attempts made and the terminal fate. -/
def runDelivery (outcomes : Nat → AttemptOutcome) : Nat × DeliveryFate :=
  runDeliveryGo outcomes 0 dispatch_webhook_max_retries

/-- Modelled from the spec: the backoff delay (milliseconds) before the `k`-th
retry, "backoff (starting ~5 time units)" from the configured minimum. -/
def deliveryBackoff (minBackoff : Nat) (k : Nat) : Nat := minBackoff * 2 ^ k

/-! ## Webhook service (`backend/app/services/webhook_service.py`) -/

/-- A `Webhook` row. -/
structure Webhook where
  id : Nat
  url : String
  event_type : WebhookEventType
  enabled : Bool
deriving DecidableEq, Repr

/-- The message handed to the `dispatch_webhook` actor for one subscriber. -/
structure DispatchMessage (α : Type) where
  event_type : WebhookEventType
  payload : α
  webhook_id : Nat
  url : String
deriving DecidableEq, Repr

/-- `fetch_enabled_webhooks`: all webhooks matching the event type with
`enabled = true`. -/
def fetch_enabled_webhooks (db : List Webhook) (event_type : WebhookEventType) :
    List Webhook :=
  db.filter (fun w => w.event_type = event_type ∧ w.enabled)

/-- Python truthiness of the `webhook_ids: Optional[Iterable[int]]` argument:
`None` and an empty collection are both falsy. -/
def pyTruthyIds (webhook_ids : Option (List Nat)) : Bool :=
  match webhook_ids with
  | Option.none => false
  | some ids => ids ≠ []

/-- `enqueue_webhook_events`: when `webhook_ids` is truthy, restrict to those
ids with `enabled = true`; otherwise resolve all enabled webhooks for the
event type; send one message per resolved webhook. -/
def enqueue_webhook_events {α : Type} (db : List Webhook)
    (event_type : WebhookEventType) (payload : α)
    (webhook_ids : Option (List Nat)) : List (DispatchMessage α) :=
  let webhooks :=
    if pyTruthyIds webhook_ids then
      db.filter (fun w => w.id ∈ webhook_ids.getD [] ∧ w.enabled)
    else
      fetch_enabled_webhooks db event_type
  webhooks.map (fun w => ⟨event_type, payload, w.id, w.url⟩)

/-! ## Progress stream (`backend/app/api/progress.py`) -/

/-- State of `pyDigitsGo`: whether the previous character was a digit (an
underscore is only legal between two digits, the token must end in a digit). -/
def pyDigitsGo : List Char → Bool → Nat → Option Nat
  | [], prevDigit, acc => if prevDigit then some acc else Option.none
  | c :: rest, prevDigit, acc =>
      if c.isDigit then
        pyDigitsGo rest true (acc * 10 + (c.toNat - 48))
      else if c = '_' ∧ prevDigit then
        pyDigitsGo rest false acc
      else
        Option.none

/-- Python `int(s)` on an ASCII decimal string: surrounding whitespace is
ignored, an optional sign precedes a non-empty digit run with optional single
underscores between digits; anything else raises `ValueError` (`none`). -/
def pyIntParse (s : String) : Option Int :=
  match (pyStrip s).data with
  | '+' :: rest => (pyDigitsGo rest false 0).map Int.ofNat
  | '-' :: rest => (pyDigitsGo rest false 0).map (fun n => -(n : Int))
  | cs => (pyDigitsGo cs false 0).map Int.ofNat

/-- A JSON-serialisable payload value in the SSE progress payload dict. -/
inductive PValue where
  | int (i : Int)
  | str (s : String)
  | null
deriving DecidableEq, Repr

/-- Python truthiness of a payload value (`0`, `""` and `None` are falsy). -/
def pyFalsy : PValue → Bool
  | .int i => i = 0
  | .str s => s = ""
  | .null => true

/-- `int(v)` on a payload value: the identity on ints, `pyIntParse` on
strings (`ValueError` on failure), `TypeError` on `None`. -/
def pyToInt : PValue → Except Unit Int
  | .int i => .ok i
  | .str s =>
      match pyIntParse s with
      | some i => .ok i
      | Option.none => .error ()
  | .null => .error ()

/-- `int(v or 0)`: falsy values coerce to `0`, the rest go through `int`. -/
def pyOrZeroInt (v : PValue) : Except Unit Int :=
  if pyFalsy v then .ok 0 else pyToInt v

/-- The `ImportJob` fields `_progress_event_stream` reads each tick (nullable
as the defensive `or 0` in the code allows). -/
structure SseJob where
  status : ImportJobStatus
  progress : Option Int
  processed_records : Option Int
  total_records : Option Int
  error_message : Option String
deriving DecidableEq, Repr

/-- What one polling tick observes: the durable job row (absent when the row
was deleted) and the ephemeral Redis hash (string fields). -/
structure Tick where
  job : Option SseJob
  eph : List (String × String)
deriving DecidableEq, Repr

/-- Key access on an association-list dict: the value at the first matching
key (keys are unique in the payload dict by construction of `dictInsert`). -/
def dictGet {α : Type} (k : String) : List (String × α) → Option α
  | [] => Option.none
  | (k', v) :: rest => if k' = k then some v else dictGet k rest

/-- The payload seeded from durable job fields, in the code's construction
order, with `x or 0` defaulting of the nullable numeric fields. -/
def seedPayload (jobId : String) (j : SseJob) : List (String × PValue) :=
  [("job_id", .str jobId),
   ("status", .str j.status.value),
   ("progress", .int (j.progress.getD 0)),
   ("processed_records", .int (j.processed_records.getD 0)),
   ("total_records", .int (j.total_records.getD 0)),
   ("error_message", match j.error_message with
     | some m => .str m
     | Option.none => .null)]

/-- `payload.update(progress_data)`: every ephemeral string field is inserted
over the seeded payload (replacing in place, appending new keys). -/
def overlayEph (payload : List (String × PValue)) (eph : List (String × String)) :
    List (String × PValue) :=
  eph.foldl (fun p kv => dictInsert kv.1 (.str kv.2) p) payload

/-- The field-name reconciliation and progress coercion performed when the
ephemeral snapshot is non-empty (`progress.py` lines 53–62): `processed` /
`total` are copied onto `processed_records` / `total_records` only when those
keys are absent (the uncaught `int(...)` there can raise, `Except.error`);
then the `progress` value goes through `int(payload["progress"] or 0)` with
`ValueError`/`TypeError` caught to `0`. -/
def renameCoerce (payload : List (String × PValue)) :
    Except Unit (List (String × PValue)) := do
  let payload ←
    if (dictGet "processed" payload).isSome ∧
        (dictGet "processed_records" payload).isNone then do
      let v ← pyOrZeroInt ((dictGet "processed" payload).getD (.int 0))
      pure (dictInsert "processed_records" (.int v) payload)
    else
      pure payload
  let payload ←
    if (dictGet "total" payload).isSome ∧
        (dictGet "total_records" payload).isNone then do
      let v ← pyOrZeroInt ((dictGet "total" payload).getD (.int 0))
      pure (dictInsert "total_records" (.int v) payload)
    else
      pure payload
  let payload :=
    match dictGet "progress" payload with
    | some v =>
        let coerced :=
          match pyOrZeroInt v with
          | .ok i => i
          | .error _ => 0
        dictInsert "progress" (.int coerced) payload
    | Option.none => payload
  pure payload

/-- One tick's payload: seed from the durable row, and when the ephemeral
snapshot is non-empty (Python truthiness of the dict) overlay it and apply
the reconciliation/coercion step. -/
def buildPayload (jobId : String) (j : SseJob) (eph : List (String × String)) :
    Except Unit (List (String × PValue)) :=
  if eph = [] then
    .ok (seedPayload jobId j)
  else
    renameCoerce (overlayEph (seedPayload jobId j) eph)

/-- An event yielded to the SSE response. -/
inductive SseEvent where
  | progress (payload : List (String × PValue))
  | error (jobId : String)
deriving DecidableEq, Repr

/-- Whether a status is terminal for the stream loop
(`job.status in {COMPLETED, FAILED}`). -/
def isTerminalStatus : ImportJobStatus → Bool
  | .completed => true
  | .failed => true
  | _ => false

/-- `_progress_event_stream(job_id)` over a finite observed trace of polling
ticks: each tick either ends the stream with one `error` event (job row gone),
or emits one `progress` event and continues unless the status was terminal.
The unreachable `Except.error` of `buildPayload` (proved unreachable below)
models the generator raising: no event for that tick and the stream dies. -/
def streamEvents (jobId : String) : List Tick → List SseEvent
  | [] => []
  | t :: ts =>
      match t.job with
      | Option.none => [.error jobId]
      | some j =>
          match buildPayload jobId j t.eph with
          | .error _ => []
          | .ok payload =>
              .progress payload ::
                (if isTerminalStatus j.status then [] else streamEvents jobId ts)

/-- Spec-side reformulation: elements of a list up to and including the first
one satisfying the predicate. -/
def takeUntilIncl {α : Type} (p : α → Bool) : List α → List α
  | [] => []
  | a :: as => if p a then [a] else a :: takeUntilIncl p as

/-- Spec-side reformulation: a tick stops the stream when the job row is gone
or its status is terminal. -/
def tickStops (t : Tick) : Bool :=
  match t.job with
  | Option.none => true
  | some j => isTerminalStatus j.status

/-- Spec-side reformulation: the single event a tick produces. -/
def tickEvent (jobId : String) (t : Tick) : SseEvent :=
  match t.job with
  | Option.none => .error jobId
  | some j => .progress ((buildPayload jobId j t.eph).toOption.getD [])

/-- Last binding of a key in the ephemeral hash (later writes win in the
overlay). -/
def ephLast (k : String) (eph : List (String × String)) : Option String :=
  dictGet k eph.reverse

/-- Spec-side reformulation of the final `progress` field: the ephemeral
string coerced with `int(... or 0)` and `0` on parse failure when the
ephemeral snapshot carries a `progress` field, else the durable value
defaulted to `0`. -/
def progressSpec (j : SseJob) (eph : List (String × String)) : Int :=
  match ephLast "progress" eph with
  | some s =>
      if s = "" then 0
      else (pyIntParse s).getD 0
  | Option.none => j.progress.getD 0

/-! ## Helper lemmas -/

theorem dictInsert_ne_nil {α : Type} (k : String) (v : α) (l : List (String × α)) :
    dictInsert k v l ≠ [] := by
  cases l with
  | nil => simp [dictInsert]
  | cons hd tl =>
      simp only [dictInsert]
      split <;> simp

theorem length_dictInsert_le {α : Type} (k : String) (v : α) (l : List (String × α)) :
    (dictInsert k v l).length ≤ l.length + 1 := by
  induction l with
  | nil => simp [dictInsert]
  | cons hd tl ih =>
      simp only [dictInsert]
      split
      · simp
      · simpa using Nat.succ_le_succ ih

theorem le_length_dictInsert {α : Type} (k : String) (v : α) (l : List (String × α)) :
    l.length ≤ (dictInsert k v l).length := by
  induction l with
  | nil => simp [dictInsert]
  | cons hd tl ih =>
      simp only [dictInsert]
      split
      · simp
      · simpa using Nat.succ_le_succ ih

theorem calculate_progress_le_100 (processed : Nat) (total : Option Nat) :
    calculate_progress processed total ≤ 100 := by
  cases total with
  | none => simp [calculate_progress]
  | some t =>
      simp only [calculate_progress]
      split
      · omega
      · exact min_le_right _ _

theorem calculate_progress_mono {p q : Nat} (total : Option Nat) (h : p ≤ q) :
    calculate_progress p total ≤ calculate_progress q total := by
  cases total with
  | none => simp [calculate_progress]
  | some t =>
      simp only [calculate_progress]
      split
      · exact le_rfl
      · exact min_le_min (Nat.div_le_div_right (Nat.mul_le_mul_right _ h)) le_rfl

/-! ## C9 — empty explicit webhook-id collection falls back to event-type
resolution -/

/-- C9: calling `enqueue_webhook_events` with an explicitly supplied but empty
collection of webhook ids does not restrict delivery to those ids (a no-op);
it resolves exactly the same enabled webhooks for the event type as when no
ids are given at all. -/
theorem C9_empty_webhook_ids_falls_back (α : Type) (db : List Webhook)
    (event_type : WebhookEventType) (payload : α) :
    enqueue_webhook_events db event_type payload (some []) =
      enqueue_webhook_events db event_type payload Option.none := rfl

/-! ## C1 — durable progress over the orchestrator's commits -/

/-- C1 (counterexample): for a one-row CSV the orchestrator durably commits
`progress = 100` on the final batch commit while the status is still
`PROCESSING`; only the subsequent commit flips the status to `COMPLETED`.  So
"progress equals 100 if and only if the job's status is COMPLETED" fails over
the run's commit sequence. -/
theorem C1_counterexample :
    ((runImport "job-1" ⟨.pending, 0, Option.none, 0, Option.none⟩
        (.present ⟨["name", "sku", "description"],
          [⟨some "Widget", some "SKU-1", Option.none⟩]⟩)
        [] .none).commits.map (fun c => (c.status, c.progress))
      = [(.processing, 0), (.processing, 0), (.processing, 100), (.completed, 100)]) ∧
    ImportJobStatus.processing ≠ ImportJobStatus.completed := by
  exact ⟨by decide, by decide⟩

/-- Whether a commit was made by the per-batch commit site. -/
def isBatchCommit (c : JobCommit) : Bool :=
  match c.kind with
  | .batch => true
  | _ => false

theorem processBatchesGo_commits (total : Nat) (err0 : Option String) (fault : Fault) :
    ∀ (batches : List (List Record × Nat)) (processed : Nat) (db : List String)
      (idx : Nat) (c : JobCommit),
      c ∈ (processBatchesGo total err0 fault batches processed db idx).commits →
      c.kind = .batch ∧ c.status = .processing ∧
        ∃ p, processed ≤ p ∧ c.progress = calculate_progress p (some total) := by
  intro batches
  induction batches with
  | nil => intro processed db idx c hc; simp [processBatchesGo] at hc
  | cons b rest ih =>
      intro processed db idx c hc
      obtain ⟨batch, rawCount⟩ := b
      simp only [processBatchesGo] at hc
      split at hc
      · simp at hc
      · simp only [List.mem_cons] at hc
        rcases hc with rfl | hc
        · exact ⟨rfl, rfl, processed + rawCount, Nat.le_add_right _ _, rfl⟩
        · obtain ⟨hk, hs, p, hp, hprog⟩ := ih _ _ _ _ hc
          exact ⟨hk, hs, p, le_trans (Nat.le_add_right _ _) hp, hprog⟩

theorem processBatchesGo_chain (total : Nat) (err0 : Option String) (fault : Fault) :
    ∀ (batches : List (List Record × Nat)) (processed : Nat) (db : List String)
      (idx : Nat),
      List.Chain' (· ≤ ·)
        ((processBatchesGo total err0 fault batches processed db idx).commits.map
          (fun c => c.progress)) := by
  intro batches
  induction batches with
  | nil => intro processed db idx; simp [processBatchesGo]
  | cons b rest ih =>
      intro processed db idx
      obtain ⟨batch, rawCount⟩ := b
      simp only [processBatchesGo]
      split
      · simp
      · rw [List.map_cons, List.chain'_cons']
        refine ⟨?_, ih _ _ _⟩
        intro h hh
        obtain ⟨c, hc, rfl⟩ :
            ∃ c ∈ (processBatchesGo total err0 fault rest (processed + rawCount)
              (((batch.map (fun r => r.sku_normalized))).foldl skuInsert db)
              (idx + 1)).commits, c.progress = h := by
          obtain ⟨c, hc, hch⟩ := List.exists_of_mem_map (List.mem_of_mem_head? hh)
          exact ⟨c, hc, hch⟩
        obtain ⟨-, -, p, hp, hprog⟩ :=
          processBatchesGo_commits total err0 fault _ _ _ _ _ hc
        rw [hprog]
        simpa using calculate_progress_mono (some total) hp

theorem isBatchCommit_of_kind {c : JobCommit} (h : c.kind = .batch) :
    isBatchCommit c = true := by
  simp [isBatchCommit, h]

theorem filter_isBatchCommit_processBatchesGo (total : Nat) (err0 : Option String)
    (fault : Fault) (batches : List (List Record × Nat)) (processed : Nat)
    (db : List String) (idx : Nat) :
    (processBatchesGo total err0 fault batches processed db idx).commits.filter
      isBatchCommit
      = (processBatchesGo total err0 fault batches processed db idx).commits := by
  refine List.filter_eq_self.mpr (fun c hc => ?_)
  exact isBatchCommit_of_kind (processBatchesGo_commits total err0 fault _ _ _ _ _ hc).1

theorem commitListFacts (c1 c2 last : JobCommit) (loop : List JobCommit)
    (h1 : c1.progress ≤ 100) (h1b : isBatchCommit c1 = false)
    (h1c : c1.status = .completed → c1.progress = 100)
    (h2 : c2.progress ≤ 100) (h2b : isBatchCommit c2 = false)
    (h2c : c2.status = .completed → c2.progress = 100)
    (hl : last.progress ≤ 100) (hlb : isBatchCommit last = false)
    (hlc : last.status = .completed → last.progress = 100)
    (hmem : ∀ c ∈ loop, c.progress ≤ 100 ∧ c.status = .processing)
    (hchain : List.Chain' (· ≤ ·) (loop.map (fun c => c.progress)))
    (hfilter : loop.filter isBatchCommit = loop) :
    (∀ c ∈ c1 :: c2 :: (loop ++ [last]), c.progress ≤ 100) ∧
    List.Chain' (· ≤ ·)
      (((c1 :: c2 :: (loop ++ [last])).filter isBatchCommit).map
        (fun c => c.progress)) ∧
    (∀ c ∈ c1 :: c2 :: (loop ++ [last]),
      c.status = .completed → c.progress = 100) := by
  refine ⟨?_, ?_, ?_⟩
  · intro c hc
    simp only [List.mem_cons, List.mem_append, List.mem_singleton,
      List.not_mem_nil, or_false] at hc
    rcases hc with rfl | rfl | hc | rfl
    · exact h1
    · exact h2
    · exact (hmem c hc).1
    · exact hl
  · rw [List.filter_cons_of_neg (by simp [h1b]),
      List.filter_cons_of_neg (by simp [h2b]), List.filter_append, hfilter,
      List.filter_cons_of_neg (by simp [hlb]), List.filter_nil,
      List.append_nil]
    exact hchain
  · intro c hc hcomp
    simp only [List.mem_cons, List.mem_append, List.mem_singleton,
      List.not_mem_nil, or_false] at hc
    rcases hc with rfl | rfl | hc | rfl
    · exact h1c hcomp
    · exact h2c hcomp
    · exact absurd ((hmem c hc).2 ▸ hcomp) (by simp)
    · exact hlc hcomp

theorem runImportBody_progress_facts (jobId : String) (job0 : JobRow)
    (fileOpt : Option CsvFile) (db : List String) (fault : Fault) :
    (∀ c ∈ (runImportBody jobId job0 fileOpt db fault).commits, c.progress ≤ 100) ∧
    List.Chain' (· ≤ ·)
      (((runImportBody jobId job0 fileOpt db fault).commits.filter isBatchCommit).map
        (fun c => c.progress)) ∧
    (∀ c ∈ (runImportBody jobId job0 fileOpt db fault).commits,
      c.status = .completed → c.progress = 100) := by
  unfold runImportBody
  by_cases hdc : fault = .duringCount
  · refine ⟨?_, ?_, ?_⟩ <;> simp [hdc, failedCommit, isBatchCommit]
  · rcases hcr : count_rows fileOpt with msg | total
    · refine ⟨?_, ?_, ?_⟩ <;> simp [hdc, hcr, failedCommit, isBatchCommit]
    · rcases hib : iter_batches fileOpt BATCH_SIZE with ⟨batches, batchErr⟩
      have hmem : ∀ c ∈ (processBatchesGo total job0.error_message fault batches
          0 db 0).commits,
          c.progress ≤ 100 ∧ c.status = .processing := by
        intro c hc
        obtain ⟨-, hs, p, -, hprog⟩ :=
          processBatchesGo_commits total job0.error_message fault _ _ _ _ _ hc
        exact ⟨hprog ▸ calculate_progress_le_100 p (some total), hs⟩
      have hchain := processBatchesGo_chain total job0.error_message fault batches 0 db 0
      have hfilter := filter_isBatchCommit_processBatchesGo total job0.error_message
        fault batches 0 db 0
      simp only [if_neg hdc, hcr, hib]
      split
      · exact commitListFacts _ _ _ _ (by simp) (by simp [isBatchCommit])
          (by simp) (by simp) (by simp [isBatchCommit]) (by simp)
          (by simp [failedCommit]) (by simp [isBatchCommit, failedCommit])
          (by simp [failedCommit]) hmem hchain hfilter
      · rcases batchErr with _ | msg
        · exact commitListFacts _ _ _ _ (by simp) (by simp [isBatchCommit])
            (by simp) (by simp) (by simp [isBatchCommit]) (by simp)
            (by simp) (by simp [isBatchCommit]) (by simp) hmem hchain hfilter
        · exact commitListFacts _ _ _ _ (by simp) (by simp [isBatchCommit])
            (by simp) (by simp) (by simp [isBatchCommit]) (by simp)
            (by simp [failedCommit]) (by simp [isBatchCommit, failedCommit])
            (by simp [failedCommit]) hmem hchain hfilter

/-- C1 (amended): over any orchestrator run, every durable commit of the job
row has progress in [0,100]; restricted to the per-batch commits, progress is
monotonic non-decreasing; and a commit with status `COMPLETED` always carries
progress 100.  The converse of the claimed "iff" is what fails: the final
batch commit can carry progress 100 while the status is still `PROCESSING`
(see the counterexample). -/
theorem C1_progress_amended (jobId : String) (job0 : JobRow) (file : FileRef)
    (db : List String) (fault : Fault) :
    (∀ c ∈ (runImport jobId job0 file db fault).commits, c.progress ≤ 100) ∧
    List.Chain' (· ≤ ·)
      (((runImport jobId job0 file db fault).commits.filter isBatchCommit).map
        (fun c => c.progress)) ∧
    (∀ c ∈ (runImport jobId job0 file db fault).commits,
      c.status = .completed → c.progress = 100) := by
  cases file with
  | noPath =>
      refine ⟨?_, ?_, ?_⟩ <;> simp [runImport, failedCommit, isBatchCommit]
  | missingOnDisk =>
      exact runImportBody_progress_facts jobId job0 Option.none db fault
  | present f =>
      exact runImportBody_progress_facts jobId job0 (some f) db fault

/-- A one-row CSV file used as concrete input. -/
def fileOneRow : CsvFile :=
  ⟨["name", "sku", "description"], [⟨some "Widget", some "SKU-1", Option.none⟩]⟩

/-- C1 (amended) witness: the batch-commit progress values of a concrete
one-row run form a non-decreasing chain. -/
theorem C1_progress_amended_witness :
    List.Chain' (· ≤ ·)
      (((runImport "job-1" ⟨.pending, 0, Option.none, 0, Option.none⟩
          (.present fileOneRow) [] .none).commits.filter isBatchCommit).map
        (fun c => c.progress)) :=
  (C1_progress_amended "job-1" ⟨.pending, 0, Option.none, 0, Option.none⟩
    (.present fileOneRow) [] .none).2.1

/-! ## C2 — what the batch window actually measures -/

/-- A CSV file with an in-batch duplicate normalized SKU followed by a fresh
SKU. -/
def fileDupThenFresh : CsvFile :=
  ⟨["name", "sku", "description"],
   [⟨some "Widget", some "SKU-1", Option.none⟩,
    ⟨some "Widget B", some "sku-1", Option.none⟩,
    ⟨some "Gadget", some "SKU-2", Option.none⟩]⟩

/-- C2 (counterexample): with window size 2, rows `SKU-1`, `sku-1`, `SKU-2`
are consumed into a single yielded batch whose raw-row count is 3 — the flush
did *not* happen after 2 raw rows, so the window is not measured in raw rows
processed: a yielded batch's raw-row count can exceed the window size. -/
theorem C2_counterexample :
    ((iter_batches (some fileDupThenFresh) 2).1.map Prod.snd = [3]) ∧
    ¬ (3 ≤ 2) :=
  ⟨rfl, by decide⟩

theorem length_map_snd_dictInsert (k : String) (v : Record)
    (l : List (String × Record)) :
    ((dictInsert k v l).map Prod.snd).length ≤ l.length + 1 := by
  simpa using length_dictInsert_le k v l

theorem iterBatchesGo_batch_lengths (bs : Nat) (hbs : 1 ≤ bs) :
    ∀ (rows : List DataRow) (cur : List (String × Record)) (raw : Nat),
      cur.length < bs → cur.length ≤ raw →
      (∀ b ∈ (iterBatchesGo bs rows cur raw).1, b.1.length ≤ bs ∧ b.1.length ≤ b.2) ∧
      (∀ (i : Nat) (b : List Record × Nat),
        ((iterBatchesGo bs rows cur raw).1)[i]? = some b →
        (((iterBatchesGo bs rows cur raw).1)[i + 1]?).isSome →
        b.1.length = bs) := by
  intro rows
  induction rows with
  | nil =>
      intro cur raw hlt hle
      simp only [iterBatchesGo]
      split
      · constructor
        · intro b hb
          simp only [List.mem_singleton] at hb
          subst hb
          exact ⟨by simpa using le_of_lt hlt, by simpa using hle⟩
        · intro i b h1 h2
          cases i with
          | zero => simp at h2
          | succ n => simp at h1
      · exact ⟨by simp, by simp⟩
  | cons row rest ih =>
      intro cur raw hlt hle
      simp only [iterBatchesGo]
      split
      · exact ⟨by simp, by simp⟩
      · -- valid row: abstract the built record, then the grown dict
        generalize (⟨pyStrip (row.name.getD ""), pyStrip (row.sku.getD ""),
          normalize_sku (pyStrip (row.sku.getD "")),
          (if pyStrip (row.description.getD "") = "" then Option.none
            else some (pyStrip (row.description.getD ""))), true⟩ : Record) = v
        generalize hc :
          dictInsert (normalize_sku (pyStrip (row.sku.getD ""))) v cur = curIns
        have hle1 : curIns.length ≤ cur.length + 1 := hc ▸ length_dictInsert_le _ _ _
        have hge1 : cur.length ≤ curIns.length := hc ▸ le_length_dictInsert _ _ _
        split
        · -- flush branch: the batch has exactly bs distinct rows
          rename_i hbsle
          have hflush : curIns.length = bs := by omega
          have hrest := ih [] 0 (by simp only [List.length_nil]; omega)
            (by simp only [List.length_nil]; omega)
          dsimp only
          constructor
          · intro b hb
            rcases List.mem_cons.mp hb with rfl | hb
            · refine ⟨by simpa using hflush.le, ?_⟩
              simp only [List.length_map]
              omega
            · exact hrest.1 b hb
          · intro i b h1 h2
            cases i with
            | zero =>
                rw [List.getElem?_cons_zero] at h1
                cases h1
                simpa using hflush
            | succ n =>
                rw [List.getElem?_cons_succ] at h1 h2
                exact hrest.2 n b h1 h2
        · -- no flush: continue with the grown dict
          exact ih curIns (raw + 1) (by omega) (by omega)

/-- C2 (amended): the batch reader's window is measured in unique
normalized-SKU keys, not raw rows: a batch is flushed exactly when the
deduplicated batch reaches `batch_size` distinct keys, so every yielded batch
has at most `batch_size` distinct rows, every non-final yielded batch has
exactly `batch_size` distinct rows, and the raw rows consumed for a batch are
at least its distinct-row count and may exceed the window size (see the
counterexample). -/
theorem C2_amended (file : Option CsvFile) (bs : Nat) (hbs : 1 ≤ bs) :
    (∀ b ∈ (iter_batches file bs).1, b.1.length ≤ bs ∧ b.1.length ≤ b.2) ∧
    (∀ (i : Nat) (b : List Record × Nat),
      ((iter_batches file bs).1)[i]? = some b →
      (((iter_batches file bs).1)[i + 1]?).isSome →
      b.1.length = bs) := by
  rcases file with _ | f
  · exact ⟨by simp [iter_batches], by simp [iter_batches]⟩
  · simp only [iter_batches]
    rcases hv : validateHeaders f.header with e | u
    · exact ⟨by simp, by simp⟩
    · exact iterBatchesGo_batch_lengths bs hbs f.rows [] 0
        (by simp only [List.length_nil]; omega) (by simp only [List.length_nil]; omega)

/-- C2 (amended) witness at window size 2 on the duplicate-then-fresh file:
its single yielded batch has 2 ≤ 2 distinct rows and consumed at least that
many raw rows. -/
theorem C2_amended_witness :
    ([(⟨"Widget B", "sku-1", "sku-1", Option.none, true⟩ : Record),
      ⟨"Gadget", "SKU-2", "sku-2", Option.none, true⟩].length ≤ 2) ∧
    ([(⟨"Widget B", "sku-1", "sku-1", Option.none, true⟩ : Record),
      ⟨"Gadget", "SKU-2", "sku-2", Option.none, true⟩].length ≤ 3) :=
  (C2_amended (some fileDupThenFresh) 2 (by decide)).1
    ([⟨"Widget B", "sku-1", "sku-1", Option.none, true⟩,
      ⟨"Gadget", "SKU-2", "sku-2", Option.none, true⟩], 3) (by decide)

/-! ## C3 — counting pre-pass agrees with the batching pass -/

theorem getLast?_cons_cons_append_singleton {α : Type} (a b x : α) (l : List α) :
    (a :: b :: (l ++ [x])).getLast? = some x := by
  rw [show a :: b :: (l ++ [x]) = (a :: b :: l) ++ [x] by simp,
    List.getLast?_append_cons]
  rfl

theorem iterBatchesGo_err_irrel (rows : List DataRow) :
    ∀ (bs bs' : Nat) (cur cur' : List (String × Record)) (raw raw' : Nat),
      (iterBatchesGo bs rows cur raw).2 = (iterBatchesGo bs' rows cur' raw').2 := by
  induction rows with
  | nil => intro bs bs' cur cur' raw raw'; simp [iterBatchesGo]
  | cons row rest ih =>
      intro bs bs' cur cur' raw raw'
      simp only [iterBatchesGo]
      by_cases hrow :
          pyStrip (row.name.getD "") = "" ∨ pyStrip (row.sku.getD "") = ""
      · simp [hrow]
      · simp only [if_neg hrow]
        generalize (⟨pyStrip (row.name.getD ""), pyStrip (row.sku.getD ""),
          normalize_sku (pyStrip (row.sku.getD "")),
          (if pyStrip (row.description.getD "") = "" then Option.none
            else some (pyStrip (row.description.getD ""))), true⟩ : Record) = v
        by_cases h1 : bs ≤
            (dictInsert (normalize_sku (pyStrip (row.sku.getD ""))) v cur).length <;>
          by_cases h2 : bs' ≤
            (dictInsert (normalize_sku (pyStrip (row.sku.getD ""))) v cur').length <;>
          simp only [if_pos, if_neg, h1, h2, if_true, if_false] <;>
          apply ih

theorem iterBatchesGo_raw_sum (bs : Nat) :
    ∀ (rows : List DataRow) (cur : List (String × Record)) (raw : Nat),
      (cur = [] → raw = 0) →
      (iterBatchesGo bs rows cur raw).2 = Option.none →
      ((iterBatchesGo bs rows cur raw).1.map Prod.snd).sum = raw + rows.length := by
  intro rows
  induction rows with
  | nil =>
      intro cur raw h0 _
      simp only [iterBatchesGo]
      by_cases hc : cur = []
      · simp [hc, h0 hc]
      · simp [hc]
  | cons row rest ih =>
      intro cur raw h0
      simp only [iterBatchesGo]
      by_cases hrow :
          pyStrip (row.name.getD "") = "" ∨ pyStrip (row.sku.getD "") = ""
      · simp [hrow]
      · simp only [if_neg hrow]
        generalize (⟨pyStrip (row.name.getD ""), pyStrip (row.sku.getD ""),
          normalize_sku (pyStrip (row.sku.getD "")),
          (if pyStrip (row.description.getD "") = "" then Option.none
            else some (pyStrip (row.description.getD ""))), true⟩ : Record) = v
        generalize hcn :
          dictInsert (normalize_sku (pyStrip (row.sku.getD ""))) v cur = curIns
        by_cases hflush : bs ≤ curIns.length
        · simp only [if_pos hflush]
          intro herr
          have hrec := ih [] 0 (fun _ => rfl) herr
          simp only [List.map_cons, List.sum_cons, hrec, List.length_cons,
            List.length_nil]
          omega
        · simp only [if_neg hflush]
          intro herr
          have hne : curIns ≠ [] := hcn ▸ dictInsert_ne_nil _ _ _
          have hrec := ih curIns (raw + 1) (fun hemp => absurd hemp hne) herr
          rw [hrec]
          simp only [List.length_cons]
          omega

theorem processBatchesGo_no_fault (total : Nat) (err0 : Option String) :
    ∀ (batches : List (List Record × Nat)) (processed : Nat) (db : List String)
      (idx : Nat),
      (processBatchesGo total err0 .none batches processed db idx).faulted = false ∧
      (processBatchesGo total err0 .none batches processed db idx).processed =
        processed + (batches.map Prod.snd).sum := by
  intro batches
  induction batches with
  | nil => intro processed db idx; simp [processBatchesGo]
  | cons b rest ih =>
      intro processed db idx
      obtain ⟨batch, rawCount⟩ := b
      simp only [processBatchesGo]
      rw [if_neg (by intro h; cases h)]
      refine ⟨(ih _ _ _).1, ?_⟩
      rw [(ih _ _ _).2]
      simp only [List.map_cons, List.sum_cons]
      omega

/-- C3: for every CSV file accepted by the counting pre-pass, the raw-row
counts yielded over all batches by the batching pass sum to the counted total
(whatever the batch size), and on a fault-free run the job's final commit is
`COMPLETED` with `processed_records = total_records = n`, the file's raw
data-row count. -/
theorem C3_count_equals_batch_sum (f : CsvFile) (bs n : Nat) (jobId : String)
    (job0 : JobRow) (db : List String)
    (hc : count_rows (some f) = .ok n)
    (hb : (iter_batches (some f) bs).2 = Option.none) :
    ((iter_batches (some f) bs).1.map Prod.snd).sum = n ∧
    (runImport jobId job0 (.present f) db .none).commits.getLast? =
      some ⟨.completed, .completed, 100, some n, n, job0.error_message⟩ ∧
    (runImport jobId job0 (.present f) db .none).outcome = .returned := by
  -- unpack the counting pre-pass
  have hval : validateHeaders f.header = .ok () ∧ n = f.rows.length := by
    rcases hv : validateHeaders f.header with e | u
    · rw [count_rows, hv] at hc
      simp only [bind, Except.bind] at hc
      cases hc
    · cases u
      rw [count_rows, hv] at hc
      simp only [bind, Except.bind, Except.ok.injEq] at hc
      exact ⟨rfl, hc.symm⟩
  obtain ⟨hval, rfl⟩ := hval
  have hsum : ∀ bs', (iter_batches (some f) bs').2 = Option.none →
      ((iter_batches (some f) bs').1.map Prod.snd).sum = f.rows.length := by
    intro bs' hb'
    rw [iter_batches] at hb' ⊢
    simp only [hval] at hb' ⊢
    simpa using iterBatchesGo_raw_sum bs' f.rows [] 0 (fun _ => rfl) hb'
  have hbB : (iter_batches (some f) BATCH_SIZE).2 = Option.none := by
    rw [iter_batches] at hb ⊢
    simp only [hval] at hb ⊢
    rw [iterBatchesGo_err_irrel f.rows BATCH_SIZE bs [] [] 0 0]
    exact hb
  refine ⟨hsum bs hb, ?_⟩
  have hlr := processBatchesGo_no_fault f.rows.length job0.error_message
    (iter_batches (some f) BATCH_SIZE).1 0 db 0
  have hrun : runImport jobId job0 (.present f) db .none =
      ⟨⟨.resetProcessing, .processing, 0, job0.total_records, 0, job0.error_message⟩ ::
        ⟨.totalPersisted, .processing, 0, some f.rows.length, 0, job0.error_message⟩ ::
        (processBatchesGo f.rows.length job0.error_message .none
          (iter_batches (some f) BATCH_SIZE).1 0 db 0).commits ++
        [⟨.completed, .completed, 100, some f.rows.length,
          (processBatchesGo f.rows.length job0.error_message .none
            (iter_batches (some f) BATCH_SIZE).1 0 db 0).processed,
          job0.error_message⟩],
       (processBatchesGo f.rows.length job0.error_message .none
          (iter_batches (some f) BATCH_SIZE).1 0 db 0).events ++
        [.importCompleted jobId
          (processBatchesGo f.rows.length job0.error_message .none
            (iter_batches (some f) BATCH_SIZE).1 0 db 0).processed f.rows.length],
       (processBatchesGo f.rows.length job0.error_message .none
          (iter_batches (some f) BATCH_SIZE).1 0 db 0).upserts,
       .returned⟩ := by
    rw [runImport, runImportBody]
    rw [if_neg (by intro h; cases h)]
    rw [hc]
    simp only [hbB, hlr.1]
    rfl
  rw [hrun]
  have hproc : (processBatchesGo f.rows.length job0.error_message .none
      (iter_batches (some f) BATCH_SIZE).1 0 db 0).processed = f.rows.length := by
    rw [hlr.2]
    simpa using hsum BATCH_SIZE hbB
  constructor
  · rw [hproc]
    exact getLast?_cons_cons_append_singleton _ _ _ _
  · rfl

/-- A two-row CSV file with distinct SKUs. -/
def fileTwoRows : CsvFile :=
  ⟨["name", "sku", "description"],
   [⟨some "Widget", some "SKU-1", some "Example"⟩,
    ⟨some "Gadget", some "SKU-2", some "Another"⟩]⟩

/-- C3 witness at a concrete two-row file and batch size 2. -/
theorem C3_count_equals_batch_sum_witness :
    ((iter_batches (some fileTwoRows) 2).1.map Prod.snd).sum = 2 ∧
    (runImport "job-1" ⟨.pending, 0, Option.none, 0, Option.none⟩
      (.present fileTwoRows) [] .none).commits.getLast? =
      some ⟨.completed, .completed, 100, some 2, 2, Option.none⟩ ∧
    (runImport "job-1" ⟨.pending, 0, Option.none, 0, Option.none⟩
      (.present fileTwoRows) [] .none).outcome = .returned :=
  C3_count_equals_batch_sum fileTwoRows 2 2 "job-1"
    ⟨.pending, 0, Option.none, 0, Option.none⟩ [] (by decide) (by decide)

/-! ## C4 — missing `sku` column -/

/-- A fixed initial job row used by concrete witnesses. -/
def jobPending : JobRow := ⟨.pending, 0, Option.none, 0, Option.none⟩

/-- C4: a CSV whose header row lacks the `sku` column fails the counting phase
with a validation error naming `sku`; the orchestrator marks the job FAILED
with that message verbatim, emits the failure webhook event, upserts nothing,
returns normally (no transient-failure signal), and the dispatcher — given
the zero max-retries of the actor — performs no retry on a normal return. -/
theorem C4_missing_sku_column (jobId : String) (job0 : JobRow) (f : CsvFile)
    (db : List String)
    (hne : f.header ≠ [])
    (hsku : "sku" ∉ (f.header.filter (fun x => x ≠ "")).map
      (fun x => pyLower (pyStrip x))) :
    ∃ msg,
      count_rows (some f) = .error msg ∧
      List.IsInfix "sku".data msg.data ∧
      runImport jobId job0 (.present f) db .none =
        ⟨[⟨.resetProcessing, .processing, 0, job0.total_records, 0,
            job0.error_message⟩,
          failedCommit job0.total_records 0 msg],
         [.importFailed jobId msg], [], .returned⟩ ∧
      (∀ r, dispatcherRetries process_csv_import_max_retries r
        (taskOutcomeOf (runImport jobId job0 (.present f) db .none).outcome)
          = false) := by
  have hmiss : ∃ msg, validateHeaders f.header = .error msg ∧
      List.IsInfix "sku".data msg.data := by
    rw [validateHeaders, if_neg hne]
    set fields := (f.header.filter (fun x => x ≠ "")).map
      (fun x => pyLower (pyStrip x)) with hfields
    simp only [REQUIRED_COLUMNS]
    by_cases hn : "name" ∈ fields <;> by_cases hd : "description" ∈ fields
    · refine ⟨"CSV missing required columns: sku", ?_, by decide⟩
      rw [List.filter_cons_of_neg (by simp [hn]),
        List.filter_cons_of_pos (by simp [hsku]),
        List.filter_cons_of_neg (by simp [hd]), List.filter_nil]
      decide
    · refine ⟨"CSV missing required columns: sku, description", ?_, by decide⟩
      rw [List.filter_cons_of_neg (by simp [hn]),
        List.filter_cons_of_pos (by simp [hsku]),
        List.filter_cons_of_pos (by simp [hd]), List.filter_nil]
      decide
    · refine ⟨"CSV missing required columns: name, sku", ?_, by decide⟩
      rw [List.filter_cons_of_pos (by simp [hn]),
        List.filter_cons_of_pos (by simp [hsku]),
        List.filter_cons_of_neg (by simp [hd]), List.filter_nil]
      decide
    · refine ⟨"CSV missing required columns: name, sku, description", ?_,
        by decide⟩
      rw [List.filter_cons_of_pos (by simp [hn]),
        List.filter_cons_of_pos (by simp [hsku]),
        List.filter_cons_of_pos (by simp [hd]), List.filter_nil]
      decide
  obtain ⟨msg, hvh, hinf⟩ := hmiss
  have hcr : count_rows (some f) = .error msg := by
    rw [count_rows, hvh]
    rfl
  have hrun : runImport jobId job0 (.present f) db .none =
      ⟨[⟨.resetProcessing, .processing, 0, job0.total_records, 0,
          job0.error_message⟩,
        failedCommit job0.total_records 0 msg],
       [.importFailed jobId msg], [], .returned⟩ := by
    rw [runImport, runImportBody, if_neg (by intro h; cases h), hcr]
  refine ⟨msg, hcr, hinf, hrun, ?_⟩
  intro r
  rw [hrun]
  rfl

/-- A CSV file whose header has no `sku` column. -/
def fileNoSku : CsvFile := ⟨["name", "description"], []⟩

/-- C4 witness: at a concrete header without `sku`, the dispatcher does not
retry the failed run. -/
theorem C4_missing_sku_column_witness :
    dispatcherRetries process_csv_import_max_retries 0
      (taskOutcomeOf
        (runImport "job-1" jobPending (.present fileNoSku) [] .none).outcome)
      = false := by
  obtain ⟨msg, h1, h2, h3, h4⟩ :=
    C4_missing_sku_column "job-1" jobPending fileNoSku [] (by decide) (by decide)
  exact h4 0

/-! ## C5 — unexpected errors mark FAILED and signal a dispatcher retry -/

theorem processBatchesGo_faulted (total : Nat) (err0 : Option String) (k : Nat) :
    ∀ (batches : List (List Record × Nat)) (processed : Nat) (db : List String)
      (idx : Nat),
      idx ≤ k → k < idx + batches.length →
      (processBatchesGo total err0 (.duringBatch k) batches processed db idx).faulted
        = true := by
  intro batches
  induction batches with
  | nil =>
      intro processed db idx h1 h2
      simp only [List.length_nil] at h2
      omega
  | cons b rest ih =>
      intro processed db idx h1 h2
      obtain ⟨batch, rawCount⟩ := b
      by_cases hik : k = idx
      · subst hik
        simp [processBatchesGo]
      · simp only [processBatchesGo]
        rw [if_neg (by intro h; injection h with h'; exact hik h')]
        exact ih _ _ (idx + 1) (by omega) (by simp only [List.length_cons] at h2; omega)

/-- C5: an injected unexpected (non-validation) error during the counting
phase, or at any batch iteration, marks the job FAILED with the corresponding
generic message and raises the transient-failure signal; the spec-modelled
dispatcher always retries on that signal even though the import actor's
max-retries is zero, while an ordinary exception under max-retries zero is
never retried. -/
theorem C5_unexpected_error_forces_retry (jobId : String) (job0 : JobRow)
    (f : CsvFile) (db : List String) (n k : Nat)
    (hc : count_rows (some f) = .ok n)
    (hk : k < (iter_batches (some f) BATCH_SIZE).1.length) :
    ((runImport jobId job0 (.present f) db .duringCount).outcome = .retrySignal ∧
      (runImport jobId job0 (.present f) db .duringCount).commits.getLast? =
        some (failedCommit job0.total_records 0 "Unexpected error preparing import.")) ∧
    ((runImport jobId job0 (.present f) db (.duringBatch k)).outcome = .retrySignal ∧
      ∃ p, (runImport jobId job0 (.present f) db (.duringBatch k)).commits.getLast?
        = some (failedCommit (some n) p "Unexpected error processing CSV.")) ∧
    (∀ r, dispatcherRetries process_csv_import_max_retries r .retryRequested
      = true) ∧
    (∀ r, dispatcherRetries process_csv_import_max_retries r .unexpectedException
      = false) := by
  refine ⟨⟨rfl, rfl⟩, ⟨?_, ?_⟩, fun r => rfl, fun r => ?_⟩
  · rw [runImport, runImportBody]
    rw [if_neg (by intro h; cases h), hc]
    have hft := processBatchesGo_faulted n job0.error_message k
      (iter_batches (some f) BATCH_SIZE).1 0 db 0 (by omega) (by simpa using hk)
    simp only [hft]
    rfl
  · rw [runImport, runImportBody]
    rw [if_neg (by intro h; cases h), hc]
    have hft := processBatchesGo_faulted n job0.error_message k
      (iter_batches (some f) BATCH_SIZE).1 0 db 0 (by omega) (by simpa using hk)
    simp only [hft]
    exact ⟨(processBatchesGo n job0.error_message (Fault.duringBatch k)
        (iter_batches (some f) BATCH_SIZE).1 0 db 0).processed,
      getLast?_cons_cons_append_singleton _ _ _ _⟩
  · simp [dispatcherRetries, process_csv_import_max_retries]

/-- C5 witness: an unexpected error during counting at a concrete one-row file
yields the transient-failure signal. -/
theorem C5_unexpected_error_forces_retry_witness :
    (runImport "job-1" jobPending (.present fileOneRow) [] .duringCount).outcome
      = .retrySignal :=
  (C5_unexpected_error_forces_retry "job-1" jobPending fileOneRow [] 1 0
    (by decide) (by decide)).1.1

/-! ## C6 — webhook delivery retry bounds -/

theorem runDeliveryGo_attempts_le (outcomes : Nat → AttemptOutcome) :
    ∀ (retriesLeft attemptIdx : Nat),
      (runDeliveryGo outcomes attemptIdx retriesLeft).1
        ≤ attemptIdx + retriesLeft + 1 := by
  intro retriesLeft
  induction retriesLeft with
  | zero =>
      intro attemptIdx
      simp only [runDeliveryGo]
      split <;> omega
  | succ m ih =>
      intro attemptIdx
      simp only [runDeliveryGo]
      split
      · omega
      · have := ih (attemptIdx + 1)
        omega

theorem runDeliveryGo_all_retry (outcomes : Nat → AttemptOutcome)
    (hall : ∀ i, deliverAttempt (outcomes i) = .retrySignal) :
    ∀ (retriesLeft attemptIdx : Nat),
      runDeliveryGo outcomes attemptIdx retriesLeft
        = (attemptIdx + retriesLeft + 1, .dropped) := by
  intro retriesLeft
  induction retriesLeft with
  | zero =>
      intro attemptIdx
      simp only [runDeliveryGo, hall attemptIdx]
  | succ m ih =>
      intro attemptIdx
      simp only [runDeliveryGo, hall attemptIdx]
      rw [ih (attemptIdx + 1)]
      ring_nf

/-- C6: a webhook delivery attempt signals a retry exactly on an HTTP status
of 400 or more, a transport error, or an unexpected exception; under the
actor's bound of 3 retries the number of attempts never exceeds 4; a target
that always fails exhausts the retries and the delivery is dropped; the
spec-modelled backoff starts at the configured 5000 ms; and the delivery
worker performs no commit of any import-job row. -/
theorem C6_webhook_delivery_retry (outcomes : Nat → AttemptOutcome) (s : Nat)
    (o : AttemptOutcome) :
    (400 ≤ s → deliverAttempt (.response s) = .retrySignal) ∧
    deliverAttempt .transportError = .retrySignal ∧
    deliverAttempt .unexpectedError = .retrySignal ∧
    (runDelivery outcomes).1 ≤ 1 + dispatch_webhook_max_retries ∧
    ((∀ i, deliverAttempt (outcomes i) = .retrySignal) →
      runDelivery outcomes = (1 + dispatch_webhook_max_retries, .dropped)) ∧
    deliveryBackoff dispatch_webhook_min_backoff 0 = 5000 ∧
    deliverAttemptJobCommits o = [] := by
  refine ⟨fun hs => ?_, rfl, rfl, ?_, fun hall => ?_, rfl, rfl⟩
  · simp [deliverAttempt, hs]
  · have := runDeliveryGo_attempts_le outcomes dispatch_webhook_max_retries 0
    rw [runDelivery]
    omega
  · rw [runDelivery, runDeliveryGo_all_retry outcomes hall]
    rfl

/-- C6 witness: a target that always answers HTTP 500 sees exactly 4 attempts
and is then dropped. -/
theorem C6_webhook_delivery_retry_witness :
    runDelivery (fun _ => .response 500) = (4, .dropped) :=
  (C6_webhook_delivery_retry (fun _ => .response 500) 500
    .transportError).2.2.2.2.1 (fun _ => rfl)

/-! ## C7 — last occurrence of a duplicated normalized SKU wins -/

/-- C7: a batch of rows `[{sku: "SKU-1", name: "A"}, {sku: "sku-1", name:
"B"}]` read with any batch size ≥ 2 yields exactly one batch holding exactly
one normalized record — name "B", raw sku "sku-1", `sku_normalized` "sku-1" —
with a raw-row count of 2. -/
theorem C7_last_occurrence_wins (bs : Nat) (hbs : 2 ≤ bs) :
    iter_batches (some ⟨["name", "sku", "description"],
      [⟨some "A", some "SKU-1", Option.none⟩,
       ⟨some "B", some "sku-1", Option.none⟩]⟩) bs =
      ([([⟨"B", "sku-1", "sku-1", Option.none, true⟩], 2)], Option.none) := by
  obtain ⟨m, rfl⟩ : ∃ m, bs = m + 2 := ⟨bs - 2, by omega⟩
  rfl

/-- C7 witness at batch size 2. -/
theorem C7_last_occurrence_wins_witness :
    iter_batches (some ⟨["name", "sku", "description"],
      [⟨some "A", some "SKU-1", Option.none⟩,
       ⟨some "B", some "sku-1", Option.none⟩]⟩) 2 =
      ([([⟨"B", "sku-1", "sku-1", Option.none, true⟩], 2)], Option.none) :=
  C7_last_occurrence_wins 2 (by decide)

/-! ## C8 — progress stream semantics -/

theorem dictGet_dictInsert {α : Type} (k k' : String) (v : α)
    (l : List (String × α)) :
    dictGet k (dictInsert k' v l) = if k' = k then some v else dictGet k l := by
  induction l with
  | nil =>
      by_cases h : k' = k <;> simp [dictInsert, dictGet, h]
  | cons hd tl ih =>
      obtain ⟨k₀, v₀⟩ := hd
      simp only [dictInsert]
      by_cases h : k₀ = k'
      · subst h
        simp only [if_pos rfl, dictGet]
        by_cases hk : k₀ = k <;> simp [hk]
      · rw [if_neg h]
        simp only [dictGet]
        by_cases hk : k₀ = k
        · subst hk
          rw [if_pos rfl, if_pos rfl, if_neg (fun hh => h hh.symm)]
        · rw [if_neg hk, if_neg hk, ih]

theorem dictGet_append {α : Type} (k : String) (l₁ l₂ : List (String × α)) :
    dictGet k (l₁ ++ l₂) =
      match dictGet k l₁ with
      | some v => some v
      | Option.none => dictGet k l₂ := by
  induction l₁ with
  | nil => simp [dictGet]
  | cons hd tl ih =>
      obtain ⟨k₀, v₀⟩ := hd
      simp only [List.cons_append, dictGet]
      by_cases h : k₀ = k <;> simp [h, ih]

theorem ephLast_cons (k k₀ v₀ : String) (tl : List (String × String)) :
    ephLast k ((k₀, v₀) :: tl) =
      match ephLast k tl with
      | some s => some s
      | Option.none => if k₀ = k then some v₀ else Option.none := by
  rw [ephLast, List.reverse_cons, dictGet_append]
  rcases hd : dictGet k tl.reverse with _ | s <;> simp [ephLast, hd, dictGet]

theorem dictGet_overlayEph (k : String) (eph : List (String × String)) :
    ∀ p : List (String × PValue),
      dictGet k (overlayEph p eph) =
        match ephLast k eph with
        | some s => some (.str s)
        | Option.none => dictGet k p := by
  induction eph with
  | nil => intro p; simp [overlayEph, ephLast, dictGet]
  | cons hd tl ih =>
      intro p
      obtain ⟨k₀, v₀⟩ := hd
      simp only [overlayEph, List.foldl_cons] at ih ⊢
      rw [ih (dictInsert k₀ (.str v₀) p), ephLast_cons, dictGet_dictInsert]
      rcases hlast : ephLast k tl with _ | s
      · by_cases h : k₀ = k <;> simp [h]
      · simp

/-- The seeded payload always carries the three numeric keys the
reconciliation step tests for. -/
theorem dictGet_overlay_seed_isSome (k : String) (jobId : String) (j : SseJob)
    (eph : List (String × String)) (w : PValue)
    (hseed : dictGet k (seedPayload jobId j) = some w) :
    (dictGet k (overlayEph (seedPayload jobId j) eph)).isSome = true := by
  rw [dictGet_overlayEph]
  rcases hlast : ephLast k eph with _ | s
  · simp [hseed]
  · simp

theorem buildPayload_ok (jobId : String) (j : SseJob)
    (eph : List (String × String)) :
    ∃ p, buildPayload jobId j eph = .ok p ∧
      dictGet "progress" p = some (.int (progressSpec j eph)) := by
  rw [buildPayload]
  by_cases he : eph = []
  · rw [if_pos he]
    subst he
    exact ⟨_, rfl, rfl⟩
  · rw [if_neg he]
    have hpr : (dictGet "processed_records"
        (overlayEph (seedPayload jobId j) eph)).isSome = true :=
      dictGet_overlay_seed_isSome _ jobId j eph _ rfl
    have htr : (dictGet "total_records"
        (overlayEph (seedPayload jobId j) eph)).isSome = true :=
      dictGet_overlay_seed_isSome _ jobId j eph _ rfl
    have hprog : dictGet "progress" (overlayEph (seedPayload jobId j) eph) =
        match ephLast "progress" eph with
        | some s => some (.str s)
        | Option.none => some (.int (j.progress.getD 0)) := by
      rw [dictGet_overlayEph]
      rcases ephLast "progress" eph with _ | s <;> rfl
    rw [renameCoerce]
    rw [if_neg (fun hc => by
      rw [Option.isNone_iff_eq_none] at hc
      rw [hc.2] at hpr
      simp at hpr)]
    simp only [pure, Except.pure, bind, Except.bind]
    rw [if_neg (fun hc => by
      rw [Option.isNone_iff_eq_none] at hc
      rw [hc.2] at htr
      simp at htr)]
    rw [hprog]
    rcases hlast : ephLast "progress" eph with _ | sv
    · -- no ephemeral progress: the seeded int is re-coerced to itself
      refine ⟨_, rfl, ?_⟩
      rw [dictGet_dictInsert, if_pos rfl]
      rw [progressSpec, hlast]
      by_cases hz : j.progress.getD 0 = 0 <;>
        simp [pyOrZeroInt, pyFalsy, pyToInt, hz]
    · -- ephemeral progress string wins, coerced with 0 fallback
      refine ⟨_, rfl, ?_⟩
      rw [dictGet_dictInsert, if_pos rfl]
      rw [progressSpec, hlast]
      by_cases hz : sv = ""
      · simp [pyOrZeroInt, pyFalsy, pyToInt, hz]
      · rcases hp : pyIntParse sv with _ | iv <;>
          simp [pyOrZeroInt, pyFalsy, pyToInt, hz, hp]

theorem streamEvents_characterization (jobId : String) :
    ∀ trace : List Tick,
      streamEvents jobId trace =
        (takeUntilIncl tickStops trace).map (tickEvent jobId) := by
  intro trace
  induction trace with
  | nil => rfl
  | cons t ts ih =>
      obtain ⟨job, eph⟩ := t
      cases job with
      | none => simp [streamEvents, takeUntilIncl, tickStops, tickEvent]
      | some j =>
          obtain ⟨p, hp, -⟩ := buildPayload_ok jobId j eph
          by_cases ht : isTerminalStatus j.status
          · simp [streamEvents, hp, takeUntilIncl, tickStops, ht, tickEvent,
              Except.toOption]
          · simp [streamEvents, hp, takeUntilIncl, tickStops, ht, tickEvent,
              Except.toOption, ih]

/-- C8: the progress stream consumes ticks up to and including the first
stopping tick (job row gone, or terminal status) and emits exactly one event
per consumed tick — an "error" event for a vanished job row (then it stops),
else one "progress" event, the terminal tick's event included; the payload
construction never raises; and the final `progress` field is the ephemeral
value coerced to an integer (0 on parse failure, Python-falsy values
included), falling back to the durable value defaulted to 0, with the
seeded durable fields defaulting null progress / processed_records /
total_records to 0. -/
theorem C8_progress_stream (jobId : String) (trace : List Tick) :
    streamEvents jobId trace =
      (takeUntilIncl tickStops trace).map (tickEvent jobId) ∧
    (∀ j : SseJob,
      dictGet "progress" (seedPayload jobId j)
        = some (.int (j.progress.getD 0)) ∧
      dictGet "processed_records" (seedPayload jobId j)
        = some (.int (j.processed_records.getD 0)) ∧
      dictGet "total_records" (seedPayload jobId j)
        = some (.int (j.total_records.getD 0))) ∧
    (∀ (j : SseJob) (eph : List (String × String)), ∃ p,
      buildPayload jobId j eph = .ok p ∧
      dictGet "progress" p = some (.int (progressSpec j eph))) :=
  ⟨streamEvents_characterization jobId trace,
   fun _ => ⟨rfl, rfl, rfl⟩,
   fun j eph => buildPayload_ok jobId j eph⟩

/-- C8 witness: on a concrete two-tick trace the stream equals the spec-side
reformulation (one progress event for the terminal tick, stream ends). -/
theorem C8_progress_stream_witness :
    streamEvents "job-1"
      [⟨some ⟨.completed, some 100, some 2, some 2, Option.none⟩, []⟩,
       ⟨Option.none, []⟩] =
      (takeUntilIncl tickStops
        [⟨some ⟨.completed, some 100, some 2, some 2, Option.none⟩, []⟩,
         ⟨Option.none, []⟩]).map (tickEvent "job-1") :=
  (C8_progress_stream "job-1"
    [⟨some ⟨.completed, some 100, some 2, some 2, Option.none⟩, []⟩,
     ⟨Option.none, []⟩]).1

/-! ## C10 — valid header, zero data rows -/

/-- C10: a CSV with a valid header containing `name`, `sku` and `description`
but no data rows completes with `total_records = 0`, `processed_records = 0`
and progress forced to 100 on the COMPLETED commit, performs no upserts,
emits no per-product events, and emits exactly one `import.completed`
event. -/
theorem C10_empty_csv_completes (jobId : String) (job0 : JobRow)
    (h : List String) (db : List String)
    (hn : "name" ∈ (h.filter (fun x => x ≠ "")).map (fun x => pyLower (pyStrip x)))
    (hs : "sku" ∈ (h.filter (fun x => x ≠ "")).map (fun x => pyLower (pyStrip x)))
    (hd : "description" ∈ (h.filter (fun x => x ≠ "")).map
      (fun x => pyLower (pyStrip x))) :
    runImport jobId job0 (.present ⟨h, []⟩) db .none =
      ⟨[⟨.resetProcessing, .processing, 0, job0.total_records, 0,
          job0.error_message⟩,
        ⟨.totalPersisted, .processing, 0, some 0, 0, job0.error_message⟩,
        ⟨.completed, .completed, 100, some 0, 0, job0.error_message⟩],
       [.importCompleted jobId 0 0], [], .returned⟩ := by
  have hne : h ≠ [] := by
    intro he
    subst he
    simp at hn
  have hval : validateHeaders h = .ok () := by
    rw [validateHeaders, if_neg hne]
    set fields := (h.filter (fun x => x ≠ "")).map (fun x => pyLower (pyStrip x))
      with hfields
    simp only [REQUIRED_COLUMNS]
    rw [List.filter_cons_of_neg (by simp [hn]),
      List.filter_cons_of_neg (by simp [hs]),
      List.filter_cons_of_neg (by simp [hd]), List.filter_nil]
    rfl
  have hcr : count_rows (some ⟨h, []⟩) = .ok 0 := by
    rw [count_rows, hval]
    rfl
  have hib : iter_batches (some ⟨h, []⟩) BATCH_SIZE = ([], Option.none) := by
    rw [iter_batches]
    simp only [hval]
    rfl
  rw [runImport, runImportBody, if_neg (by intro hx; cases hx), hcr, hib]
  rfl

/-- C10 witness at the literal header `name,sku,description`. -/
theorem C10_empty_csv_completes_witness :
    runImport "job-1" jobPending
      (.present ⟨["name", "sku", "description"], []⟩) [] .none =
      ⟨[⟨.resetProcessing, .processing, 0, Option.none, 0, Option.none⟩,
        ⟨.totalPersisted, .processing, 0, some 0, 0, Option.none⟩,
        ⟨.completed, .completed, 100, some 0, 0, Option.none⟩],
       [.importCompleted "job-1" 0 0], [], .returned⟩ :=
  C10_empty_csv_completes "job-1" jobPending ["name", "sku", "description"] []
    (by decide) (by decide) (by decide)

end ProductImporter
